import Mathlib

/-!
Shallow embedding of the DevTools workspace file-system bridge of
`CommonWebContentsDelegate` (src/atom/common/javascript_bindings.cc,
second translation unit: common_web_contents_delegate.cc).

The delegate owns three pieces of mutable state:
  * the persisted path registry `prefs::kDevToolsFileSystemPaths`
    (a preference dictionary mapping local path -> type tag),
  * the save/append cache `saved_files_` (url -> local path),
  * the indexing job tracker `devtools_indexing_jobs_`
    (request_id -> refcounted indexing job handle).

C++ `std::map` / `base::DictionaryValue` state is modelled as association
lists with unique keys; each delegate method becomes a pure function from
the state to a new state paired with the ordered list of externally
observable effects (isolated-context registrations, capability grants,
posted background file tasks, picker invocations and front-end
notifications via `CallClientFunction`).
-/

namespace Muon

/-- Embeds `std::map::find` / dictionary key lookup: first value bound to `k`. -/
def lookupKey {α β : Type} [DecidableEq α] (k : α) : List (α × β) → Option β
  | [] => none
  | (a, b) :: t => if a = k then some b else lookupKey k t

/-- Embeds `std::map::count(k) != 0` / `DictionaryValue::HasKey`. -/
def hasKey {α β : Type} [DecidableEq α] (k : α) (l : List (α × β)) : Bool :=
  (lookupKey k l).isSome

/-- Embeds `map[k] = v` / `SetWithoutPathExpansion`: replace the binding of `k`,
or append a fresh one. -/
def upsert {α β : Type} [DecidableEq α] (k : α) (v : β) : List (α × β) → List (α × β)
  | [] => [(k, v)]
  | (a, b) :: t => if a = k then (k, v) :: t else (a, b) :: upsert k v t

/-- Embeds `std::map::erase(k)` / `RemoveWithoutPathExpansion`. -/
def eraseKey {α β : Type} [DecidableEq α] (k : α) : List (α × β) → List (α × β)
  | [] => []
  | (a, b) :: t => if a = k then t else (a, b) :: eraseKey k t

/-- The keys of an association list. -/
def keysOf {α β : Type} : List (α × β) → List α
  | [] => []
  | (a, _) :: t => a :: keysOf t

/-- A well-formed map: no key bound twice (always true of `std::map`). -/
def keysNodup {α β : Type} (l : List (α × β)) : Prop :=
  (keysOf l).Nodup

instance {α β : Type} [DecidableEq α] (l : List (α × β)) : Decidable (keysNodup l) :=
  List.nodupDecidable (keysOf l)

/-- The `FileSystem` struct (javascript_bindings.cc lines 388-405). -/
structure FileSystem where
  type : String
  file_system_name : String
  root_url : String
  file_system_path : String
deriving Repr, DecidableEq

/-- A job held by the external `DevToolsFileSystemIndexer`.  The delegate
only keeps a refcounted handle in `devtools_indexing_jobs_`; the indexer
side of a job outlives an erased tracker entry, so the two are modelled
separately.  `stopped` records that `Stop()` was called on the handle. -/
structure IndexerJob where
  handle : Nat
  request_id : Int
  file_system_path : String
  stopped : Bool
deriving Repr, DecidableEq

/-- One-way front-end notifications delivered through
`CallClientFunction("DevToolsAPI....", ...)`. -/
inductive Notification where
  | fileSystemsLoaded (file_systems : List FileSystem)
  | fileSystemAdded (file_system : FileSystem)
  | fileSystemRemoved (file_system_path : String)
  | savedURL (url : String)
  | canceledSaveURL (url : String)
  | appendedToURL (url : String)
  | indexingTotalWorkCalculated (request_id : Int) (file_system_path : String) (total_work : Int)
  | indexingWorked (request_id : Int) (file_system_path : String) (worked : Int)
  | indexingDone (request_id : Int) (file_system_path : String)
  | searchCompleted (request_id : Int) (file_system_path : String) (file_paths : List String)
deriving Repr, DecidableEq

/-- Externally observable side effects of a delegate method, in program
order.  State mutations of the delegate itself are not effects; they are
the returned state. -/
inductive Effect where
  | registerFSForPath (file_system_path : String)
  | grantReadFileSystem (renderer_id : Int) (file_system_id : String)
  | grantWriteFileSystem (renderer_id : Int) (file_system_id : String)
  | grantCreateFileForFileSystem (renderer_id : Int) (file_system_id : String)
  | grantDeleteFromFileSystem (renderer_id : Int) (file_system_id : String)
  | grantReadFile (renderer_id : Int) (file_system_path : String)
  | revokeFileSystemByPath (file_system_path : String)
  | notify (n : Notification)
  | showSaveFilePicker (url : String) (content : String) (default_path : String)
  | showFolderPicker (type : String)
  | postWriteTask (file_system_path : String) (content : String) (reply_url : String)
  | postAppendTask (file_system_path : String) (content : String) (reply_url : String)
  | indexerSearch (request_id : Int) (file_system_path : String) (query : String)
deriving Repr, DecidableEq

/-- Pure facts about the host environment a delegate call consults:
the `IsolatedContext` id minter, the `ChildProcessSecurityPolicy` read
check, the storage name/URI helpers and the download-directory default
save path.  All are external collaborators, kept abstract as fields. -/
structure Env where
  origin : String
  renderer_id : Int
  register_file_system_for_path : String → String
  can_read_file : Int → String → Bool
  isolated_file_system_name : String → String → String
  isolated_file_system_root_uri : String → String → String → String
  default_save_path : String → String

/-- The mutable state of `CommonWebContentsDelegate` relevant to the
DevTools bridge, plus the job store of the external indexer. -/
structure DelegateState where
  devtools_file_system_paths : List (String × String)
  saved_files : List (String × String)
  devtools_indexing_jobs : List (Int × Nat)
  indexer_jobs : List IndexerJob
  next_handle : Nat
deriving Repr, DecidableEq

/-- Embeds `RegisterFileSystem` (lines 407-430): registers the path with the
isolated context and grants the renderer read/write/create/delete on the
minted file-system id, plus a read grant on the raw path when the policy
does not already allow it.  Returns the file-system id and the grant
effects in program order. -/
def RegisterFileSystem (env : Env) (path : String) : String × List Effect :=
  let file_system_id := env.register_file_system_for_path path
  let effects := [Effect.registerFSForPath path,
    Effect.grantReadFileSystem env.renderer_id file_system_id,
    Effect.grantWriteFileSystem env.renderer_id file_system_id,
    Effect.grantCreateFileForFileSystem env.renderer_id file_system_id,
    Effect.grantDeleteFromFileSystem env.renderer_id file_system_id]
  let effects := if env.can_read_file env.renderer_id path then effects
    else effects ++ [Effect.grantReadFile env.renderer_id path]
  (file_system_id, effects)

/-- Embeds `CreateFileSystemStruct` (lines 432-443). -/
def CreateFileSystemStruct (env : Env) (type file_system_id file_system_path : String) :
    FileSystem :=
  { type := type,
    file_system_name := env.isolated_file_system_name env.origin file_system_id,
    root_url := env.isolated_file_system_root_uri env.origin file_system_id "<root>",
    file_system_path := file_system_path }

/-- Embeds `GetAddedFileSystemPaths` (lines 475-490): reads the persisted
dictionary into a path -> type map.  The dictionary only ever holds
string values written by `DevToolsAddFileSystemInteral`, so the
`is_string` coercion is the identity here. -/
def GetAddedFileSystemPaths (s : DelegateState) : List (String × String) :=
  s.devtools_file_system_paths

/-- Embeds `IsDevToolsFileSystemAdded` (lines 492-499). -/
def IsDevToolsFileSystemAdded (s : DelegateState) (file_system_path : String) : Bool :=
  hasKey file_system_path s.devtools_file_system_paths

/-- Embeds `OnDevToolsSaveToFile` (lines 869-875): reply of the background write. -/
def OnDevToolsSaveToFile (s : DelegateState) (url : String) :
    DelegateState × List Effect :=
  (s, [Effect.notify (Notification.savedURL url)])

/-- Embeds `OnDevToolsAppendToFile` (lines 877-883): reply of the background append. -/
def OnDevToolsAppendToFile (s : DelegateState) (url : String) :
    DelegateState × List Effect :=
  (s, [Effect.notify (Notification.appendedToURL url)])

/-- Embeds `DevToolsSaveToFile` (lines 660-684): reuse the cached path when one
exists and `save_as` is false, otherwise open the save-file picker with
the default-downloads path for the url. -/
def DevToolsSaveToFile (env : Env) (s : DelegateState) (url content : String)
    (save_as : Bool) : DelegateState × List Effect :=
  match lookupKey url s.saved_files with
  | some path =>
    if save_as then
      (s, [Effect.showSaveFilePicker url content (env.default_save_path url)])
    else
      ({ s with saved_files := upsert url path s.saved_files },
       [Effect.postWriteTask path content url])
  | none =>
    (s, [Effect.showSaveFilePicker url content (env.default_save_path url)])

/-- Embeds `DevToolsAppendToFile` (lines 686-696): silently returns when the url
has no cached path. -/
def DevToolsAppendToFile (s : DelegateState) (url content : String) :
    DelegateState × List Effect :=
  match lookupKey url s.saved_files with
  | none => (s, [])
  | some path => (s, [Effect.postAppendTask path content url])

/-- Embeds `OnSaveFileSelected` (lines 819-829): record the chosen path and post
the background write.  The picker never calls this with an empty
selection (`DCHECK(!paths.empty())`); the empty case is a dead branch. -/
def OnSaveFileSelected (s : DelegateState) (url content : String)
    (paths : List String) : DelegateState × List Effect :=
  match paths with
  | [] => (s, [])
  | path :: _ =>
    ({ s with saved_files := upsert url path s.saved_files },
     [Effect.postWriteTask path content url])

/-- Embeds `OnSaveFileSelectionCancelled` (lines 830-835). -/
def OnSaveFileSelectionCancelled (s : DelegateState) (url : String) :
    DelegateState × List Effect :=
  (s, [Effect.notify (Notification.canceledSaveURL url)])

/-- The loop body of `DevToolsRequestFileSystems` for one persisted
`(path, type)` entry: register it and build its `FileSystem` value. -/
def requestedFileSystemReg (env : Env) (pt : String × String) :
    List Effect × FileSystem :=
  let r := RegisterFileSystem env pt.1
  (r.2, CreateFileSystemStruct env pt.2 r.1 pt.1)

/-- Embeds `DevToolsRequestFileSystems` (lines 698-727): with an empty registry,
immediately deliver an empty `fileSystemsLoaded`; otherwise register each
persisted path (with its grants) and deliver the assembled list. -/
def DevToolsRequestFileSystems (env : Env) (s : DelegateState) :
    DelegateState × List Effect :=
  let file_system_paths := GetAddedFileSystemPaths s
  if file_system_paths.isEmpty then
    (s, [Effect.notify (Notification.fileSystemsLoaded [])])
  else
    let regs := file_system_paths.map (requestedFileSystemReg env)
    (s, (regs.flatMap Prod.fst) ++
        [Effect.notify (Notification.fileSystemsLoaded (regs.map Prod.snd))])

/-- Embeds `DevToolsAddFileSystemInteral` (lines 845-867; name as in source):
always registers the file system and grants capabilities, then returns
early if the path is already persisted, else persists it and notifies. -/
def DevToolsAddFileSystemInteral (env : Env) (s : DelegateState)
    (path type : String) : DelegateState × List Effect :=
  let r := RegisterFileSystem env path
  if IsDevToolsFileSystemAdded s path then
    (s, r.2)
  else
    let file_system := CreateFileSystemStruct env type r.1 path
    ({ s with devtools_file_system_paths :=
        upsert path type s.devtools_file_system_paths },
     r.2 ++ [Effect.notify (Notification.fileSystemAdded file_system)])

/-- Embeds `DevToolsAddFileSystem` (lines 729-743): an empty path opens the
folder picker, a concrete path goes straight to the internal add. -/
def DevToolsAddFileSystem (env : Env) (s : DelegateState)
    (file_system_path type : String) : DelegateState × List Effect :=
  if file_system_path = "" then
    (s, [Effect.showFolderPicker type])
  else
    DevToolsAddFileSystemInteral env s file_system_path type

/-- Embeds `OnAddFileSelected` (lines 837-841). -/
def OnAddFileSelected (env : Env) (s : DelegateState) (type : String)
    (paths : List String) : DelegateState × List Effect :=
  match paths with
  | [] => (s, [])
  | path :: _ => DevToolsAddFileSystemInteral env s path type

/-- Embeds `OnAddFileSelectionCancelled` (line 843): an empty body. -/
def OnAddFileSelectionCancelled (s : DelegateState) :
    DelegateState × List Effect :=
  (s, [])

/-- Embeds `DevToolsRemoveFileSystem` (lines 745-762). -/
def DevToolsRemoveFileSystem (s : DelegateState) (file_system_path : String) :
    DelegateState × List Effect :=
  ({ s with devtools_file_system_paths :=
      eraseKey file_system_path s.devtools_file_system_paths },
   [Effect.revokeFileSystemByPath file_system_path,
    Effect.notify (Notification.fileSystemRemoved file_system_path)])

/-- Embeds `OnDevToolsIndexingWorkCalculated` (lines 885-896). -/
def OnDevToolsIndexingWorkCalculated (s : DelegateState) (request_id : Int)
    (file_system_path : String) (total_work : Int) : DelegateState × List Effect :=
  (s, [Effect.notify
        (Notification.indexingTotalWorkCalculated request_id file_system_path total_work)])

/-- Embeds `OnDevToolsIndexingWorked` (lines 898-909). -/
def OnDevToolsIndexingWorked (s : DelegateState) (request_id : Int)
    (file_system_path : String) (worked : Int) : DelegateState × List Effect :=
  (s, [Effect.notify (Notification.indexingWorked request_id file_system_path worked)])

/-- Embeds `OnDevToolsIndexingDone` (lines 911-921): erase the tracker entry,
then notify the front end. -/
def OnDevToolsIndexingDone (s : DelegateState) (request_id : Int)
    (file_system_path : String) : DelegateState × List Effect :=
  ({ s with devtools_indexing_jobs := eraseKey request_id s.devtools_indexing_jobs },
   [Effect.notify (Notification.indexingDone request_id file_system_path)])

/-- Embeds `DevToolsIndexPath` (lines 764-790): an unregistered path reports done
immediately (through `OnDevToolsIndexingDone`); an already-tracked
request_id returns; otherwise a fresh indexer job is created and tracked. -/
def DevToolsIndexPath (s : DelegateState) (request_id : Int)
    (file_system_path : String) : DelegateState × List Effect :=
  if IsDevToolsFileSystemAdded s file_system_path = false then
    OnDevToolsIndexingDone s request_id file_system_path
  else if hasKey request_id s.devtools_indexing_jobs then
    (s, [])
  else
    let handle := s.next_handle
    ({ s with
        devtools_indexing_jobs := upsert request_id handle s.devtools_indexing_jobs,
        indexer_jobs := s.indexer_jobs ++
          [{ handle := handle, request_id := request_id,
             file_system_path := file_system_path, stopped := false }],
        next_handle := handle + 1 },
     [])

/-- Embeds `DevToolsStopIndexing` (lines 792-798): if the request_id is tracked,
call `Stop()` on its handle and erase the tracker entry. -/
def DevToolsStopIndexing (s : DelegateState) (request_id : Int) :
    DelegateState × List Effect :=
  match lookupKey request_id s.devtools_indexing_jobs with
  | none => (s, [])
  | some handle =>
    ({ s with
        indexer_jobs := s.indexer_jobs.map (fun j =>
          if j.handle = handle then { j with stopped := true } else j),
        devtools_indexing_jobs := eraseKey request_id s.devtools_indexing_jobs },
     [])

/-- Embeds `OnDevToolsSearchCompleted` (lines 923-937). -/
def OnDevToolsSearchCompleted (s : DelegateState) (request_id : Int)
    (file_system_path : String) (file_paths : List String) :
    DelegateState × List Effect :=
  (s, [Effect.notify
        (Notification.searchCompleted request_id file_system_path file_paths)])

/-- Embeds `DevToolsSearchInPath` (lines 800-817). -/
def DevToolsSearchInPath (s : DelegateState) (request_id : Int)
    (file_system_path query : String) : DelegateState × List Effect :=
  if IsDevToolsFileSystemAdded s file_system_path = false then
    OnDevToolsSearchCompleted s request_id file_system_path []
  else
    (s, [Effect.indexerSearch request_id file_system_path query])

/-- An asynchronous callback of the external indexer arriving on the
owning thread, addressed by job handle. -/
inductive IndexerEvent where
  | workCalculated (handle : Nat) (total_work : Int)
  | worked (handle : Nat) (amount : Int)
  | done (handle : Nat)
deriving Repr, DecidableEq

/-- The indexer job a handle refers to, if any. -/
def findIndexerJob (s : DelegateState) (handle : Nat) : Option IndexerJob :=
  s.indexer_jobs.find? (fun j => j.handle = handle)

/-- Modelled from the spec: delivery of one asynchronous callback of
`DevToolsFileSystemIndexer`, whose implementation is not under src/ (only
its caller is).  Per the spec, cancellation of a job "only guarantees no
further notifications are delivered for that request_id", work-estimate
and progress callbacks "may fire zero or more times" and completion
"exactly once" per job: so a handle that was stopped (or already
completed) delivers nothing, and an unstopped handle relays into the
delegate's bound `OnDevToolsIndexing...` callback. -/
def deliverIndexerEvent (s : DelegateState) (ev : IndexerEvent) :
    DelegateState × List Effect :=
  match ev with
  | IndexerEvent.workCalculated handle total_work =>
    match findIndexerJob s handle with
    | none => (s, [])
    | some j =>
      if j.stopped then (s, [])
      else OnDevToolsIndexingWorkCalculated s j.request_id j.file_system_path total_work
  | IndexerEvent.worked handle amount =>
    match findIndexerJob s handle with
    | none => (s, [])
    | some j =>
      if j.stopped then (s, [])
      else OnDevToolsIndexingWorked s j.request_id j.file_system_path amount
  | IndexerEvent.done handle =>
    match findIndexerJob s handle with
    | none => (s, [])
    | some j =>
      if j.stopped then (s, [])
      else
        OnDevToolsIndexingDone
          { s with indexer_jobs := s.indexer_jobs.filter (fun j2 => j2.handle ≠ handle) }
          j.request_id j.file_system_path

/-- Deliver a sequence of indexer callbacks, accumulating the effects. -/
def runIndexerEvents (s : DelegateState) : List IndexerEvent → DelegateState × List Effect
  | [] => (s, [])
  | ev :: rest =>
    let r := deliverIndexerEvent s ev
    let r2 := runIndexerEvents r.1 rest
    (r2.1, r.2 ++ r2.2)

/-- Whether a notification carries the given indexing request_id in its
first positional argument (the three indexing notifications do). -/
def Notification.bearsRequestId : Notification → Int → Bool
  | Notification.indexingTotalWorkCalculated rid _ _, id => rid = id
  | Notification.indexingWorked rid _ _, id => rid = id
  | Notification.indexingDone rid _, id => rid = id
  | _, _ => false

/-- Whether an effect is a front-end notification bearing the request_id. -/
def Effect.bearsRequestId : Effect → Int → Bool
  | Effect.notify n, id => n.bearsRequestId id
  | _, _ => false

/-- Consistency of the two job stores: every indexer-side job that has not
been stopped is still tracked by the delegate under its request_id.  This
holds of every state the delegate's operations construct: a job is born
tracked and unstopped, and only leaves the tracker by being stopped
(`DevToolsStopIndexing`) or completed (`OnDevToolsIndexingDone` removes
the indexer job in the same delivery). -/
def JobsConsistent (s : DelegateState) : Prop :=
  ∀ j ∈ s.indexer_jobs, j.stopped = false →
    lookupKey j.request_id s.devtools_indexing_jobs = some j.handle

instance (s : DelegateState) : Decidable (JobsConsistent s) :=
  List.decidableBAll _ s.indexer_jobs

/-- Every indexer-side job for the given request_id has been stopped. -/
def AllStoppedFor (s : DelegateState) (id : Int) : Prop :=
  ∀ j ∈ s.indexer_jobs, j.request_id = id → j.stopped = true

theorem lookupKey_upsert_self {α β : Type} [DecidableEq α] (k : α) (v : β)
    (l : List (α × β)) : lookupKey k (upsert k v l) = some v := by
  induction l with
  | nil => simp [upsert, lookupKey]
  | cons p t ih =>
    obtain ⟨a, b⟩ := p
    by_cases h : a = k
    · simp [upsert, h, lookupKey]
    · simp [upsert, h, lookupKey, ih]

theorem mem_upsert_self {α β : Type} [DecidableEq α] (k : α) (v : β)
    (l : List (α × β)) : (k, v) ∈ upsert k v l := by
  induction l with
  | nil => simp [upsert]
  | cons p t ih =>
    obtain ⟨a, b⟩ := p
    by_cases h : a = k <;> simp [upsert, h, ih]

theorem upsert_of_lookupKey_eq {α β : Type} [DecidableEq α] {k : α} {v : β}
    {l : List (α × β)} (h : lookupKey k l = some v) : upsert k v l = l := by
  induction l with
  | nil => simp [lookupKey] at h
  | cons p t ih =>
    obtain ⟨a, b⟩ := p
    by_cases hak : a = k
    · subst hak
      simp [lookupKey] at h
      simp [upsert, h]
    · simp [lookupKey, hak] at h
      simp [upsert, hak, ih h]

theorem mem_keysOf_of_hasKey {α β : Type} [DecidableEq α] {k : α}
    {l : List (α × β)} (h : hasKey k l = true) : k ∈ keysOf l := by
  induction l with
  | nil => simp [hasKey, lookupKey] at h
  | cons p t ih =>
    obtain ⟨a, b⟩ := p
    by_cases hak : a = k
    · simp [keysOf, hak]
    · simp [hasKey, lookupKey, hak] at h
      simp [keysOf]
      exact Or.inr (ih h)

theorem hasKey_of_mem_keysOf {α β : Type} [DecidableEq α] {k : α}
    {l : List (α × β)} (h : k ∈ keysOf l) : hasKey k l = true := by
  induction l with
  | nil => simp [keysOf] at h
  | cons p t ih =>
    obtain ⟨a, b⟩ := p
    by_cases hak : a = k
    · simp [hasKey, lookupKey, hak]
    · simp [keysOf, Ne.symm hak] at h
      simp [hasKey, lookupKey, hak]
      simpa [hasKey] using ih h

theorem mem_keysOf_eraseKey {α β : Type} [DecidableEq α] {x k : α}
    {l : List (α × β)} (h : x ∈ keysOf (eraseKey k l)) : x ∈ keysOf l := by
  induction l with
  | nil => simp [eraseKey, keysOf] at h
  | cons p t ih =>
    obtain ⟨a, b⟩ := p
    by_cases hak : a = k
    · simp [eraseKey, hak] at h
      simp [keysOf]
      exact Or.inr h
    · simp [eraseKey, hak, keysOf] at h
      rcases h with h | h
      · simp [keysOf, h]
      · simp [keysOf]
        exact Or.inr (ih h)

theorem mem_keysOf_upsert {α β : Type} [DecidableEq α] {x k : α} {v : β}
    {l : List (α × β)} (h : x ∈ keysOf (upsert k v l)) : x = k ∨ x ∈ keysOf l := by
  induction l with
  | nil => simpa [upsert, keysOf] using h
  | cons p t ih =>
    obtain ⟨a, b⟩ := p
    by_cases hak : a = k
    · simp [upsert, hak, keysOf] at h
      rcases h with h | h
      · exact Or.inl h
      · exact Or.inr (by simp [keysOf, h])
    · simp [upsert, hak, keysOf] at h
      rcases h with h | h
      · exact Or.inr (by simp [keysOf, h])
      · rcases ih h with h' | h'
        · exact Or.inl h'
        · exact Or.inr (by simp [keysOf]; exact Or.inr h')

theorem keysNodup_eraseKey {α β : Type} [DecidableEq α] (k : α)
    {l : List (α × β)} (h : keysNodup l) : keysNodup (eraseKey k l) := by
  induction l with
  | nil => simpa [eraseKey] using h
  | cons p t ih =>
    obtain ⟨a, b⟩ := p
    simp [keysNodup, keysOf] at h
    by_cases hak : a = k
    · simpa [keysNodup, eraseKey, hak, keysOf] using h.2
    · have ht := ih h.2
      simp [keysNodup, eraseKey, hak, keysOf] at ht ⊢
      exact ⟨fun hmem => h.1 (mem_keysOf_eraseKey (by simpa [keysOf] using hmem)), ht⟩

theorem keysNodup_upsert {α β : Type} [DecidableEq α] (k : α) (v : β)
    {l : List (α × β)} (h : keysNodup l) : keysNodup (upsert k v l) := by
  induction l with
  | nil => simp [keysNodup, upsert, keysOf]
  | cons p t ih =>
    obtain ⟨a, b⟩ := p
    simp [keysNodup, keysOf] at h
    by_cases hak : a = k
    · subst hak
      simpa [keysNodup, upsert, keysOf] using h
    · have ht := ih h.2
      simp [keysNodup, upsert, hak, keysOf] at ht ⊢
      refine ⟨fun hmem => ?_, ht⟩
      rcases mem_keysOf_upsert (by simpa [keysOf] using hmem) with h' | h'
      · exact hak h'
      · exact h.1 h'

theorem hasKey_eraseKey_self {α β : Type} [DecidableEq α] (k : α)
    {l : List (α × β)} (h : keysNodup l) : hasKey k (eraseKey k l) = false := by
  induction l with
  | nil => simp [eraseKey, hasKey, lookupKey]
  | cons p t ih =>
    obtain ⟨a, b⟩ := p
    simp [keysNodup, keysOf] at h
    by_cases hak : a = k
    · subst hak
      simp [eraseKey]
      by_contra hcontra
      have : hasKey a t = true := by
        cases hh : hasKey a t
        · exact absurd hh hcontra
        · rfl
      exact h.1 (mem_keysOf_of_hasKey this)
    · simp [eraseKey, hak, hasKey, lookupKey]
      simpa [hasKey] using ih h.2

theorem allStoppedFor_stopIndexing (s : DelegateState) (id : Int)
    (hwf : JobsConsistent s) : AllStoppedFor (DevToolsStopIndexing s id).1 id := by
  unfold DevToolsStopIndexing
  cases hl : lookupKey id s.devtools_indexing_jobs with
  | none =>
    intro j hj hid
    cases hstop : j.stopped with
    | true => rfl
    | false =>
      have := hwf j hj hstop
      rw [hid, hl] at this
      exact absurd this (by simp)
  | some handle =>
    intro j hj hid
    simp only [List.mem_map] at hj
    obtain ⟨j0, hj0, hfj⟩ := hj
    by_cases hh : j0.handle = handle
    · rw [← hfj]
      simp [hh]
    · rw [← hfj]
      simp [hh]
      cases hstop : j0.stopped with
      | true => rfl
      | false =>
        have := hwf j0 hj0 hstop
        have hid0 : j0.request_id = id := by
          rw [← hfj] at hid
          simpa [hh] using hid
        rw [hid0, hl] at this
        simp at this
        exact absurd this.symm hh

theorem deliverIndexerEvent_silent_of_allStopped (s : DelegateState) (id : Int)
    (ev : IndexerEvent) (h : AllStoppedFor s id) :
    (deliverIndexerEvent s ev).2.filter (fun e => e.bearsRequestId id) = [] ∧
    AllStoppedFor (deliverIndexerEvent s ev).1 id := by
  have hrid : ∀ j ∈ s.indexer_jobs, j.stopped = false → (j.request_id = id) = False := by
    intro j hj hstop
    simp only [eq_iff_iff, iff_false]
    intro hid
    rw [h j hj hid] at hstop
    simp at hstop
  cases ev with
  | workCalculated handle total_work =>
    cases hf : findIndexerJob s handle with
    | none => simpa [deliverIndexerEvent, hf] using h
    | some j =>
      have hjmem : j ∈ s.indexer_jobs := List.mem_of_find?_eq_some hf
      cases hstop : j.stopped with
      | true => simpa [deliverIndexerEvent, hf, hstop] using h
      | false =>
        refine ⟨?_, by simpa [deliverIndexerEvent, hf, hstop,
          OnDevToolsIndexingWorkCalculated] using h⟩
        simp [deliverIndexerEvent, hf, hstop, OnDevToolsIndexingWorkCalculated,
          Effect.bearsRequestId, Notification.bearsRequestId, hrid j hjmem hstop]
  | worked handle amount =>
    cases hf : findIndexerJob s handle with
    | none => simpa [deliverIndexerEvent, hf] using h
    | some j =>
      have hjmem : j ∈ s.indexer_jobs := List.mem_of_find?_eq_some hf
      cases hstop : j.stopped with
      | true => simpa [deliverIndexerEvent, hf, hstop] using h
      | false =>
        refine ⟨?_, by simpa [deliverIndexerEvent, hf, hstop,
          OnDevToolsIndexingWorked] using h⟩
        simp [deliverIndexerEvent, hf, hstop, OnDevToolsIndexingWorked,
          Effect.bearsRequestId, Notification.bearsRequestId, hrid j hjmem hstop]
  | done handle =>
    cases hf : findIndexerJob s handle with
    | none => simpa [deliverIndexerEvent, hf] using h
    | some j =>
      have hjmem : j ∈ s.indexer_jobs := List.mem_of_find?_eq_some hf
      cases hstop : j.stopped with
      | true => simpa [deliverIndexerEvent, hf, hstop] using h
      | false =>
        constructor
        · simp [deliverIndexerEvent, hf, hstop, OnDevToolsIndexingDone,
            Effect.bearsRequestId, Notification.bearsRequestId, hrid j hjmem hstop]
        · intro j2 hj2 hid2
          simp only [deliverIndexerEvent, hf, hstop, OnDevToolsIndexingDone] at hj2
          simp only [Bool.false_eq_true, if_false, List.mem_filter] at hj2
          exact h j2 hj2.1 hid2

theorem runIndexerEvents_silent_of_allStopped (s : DelegateState) (id : Int)
    (evs : List IndexerEvent) (h : AllStoppedFor s id) :
    (runIndexerEvents s evs).2.filter (fun e => e.bearsRequestId id) = [] := by
  induction evs generalizing s with
  | nil => simp [runIndexerEvents]
  | cons ev rest ih =>
    have hd := deliverIndexerEvent_silent_of_allStopped s id ev h
    simp [runIndexerEvents, List.filter_append, hd.1, ih _ hd.2]

theorem registerFS_mem_registerFSForPath (env : Env) (p : String) :
    Effect.registerFSForPath p ∈ (RegisterFileSystem env p).2 := by
  unfold RegisterFileSystem
  by_cases hc : env.can_read_file env.renderer_id p <;> simp [hc]

theorem registerFS_mem_grants (env : Env) (p : String) :
    Effect.grantReadFileSystem env.renderer_id (env.register_file_system_for_path p) ∈
      (RegisterFileSystem env p).2 ∧
    Effect.grantWriteFileSystem env.renderer_id (env.register_file_system_for_path p) ∈
      (RegisterFileSystem env p).2 ∧
    Effect.grantCreateFileForFileSystem env.renderer_id
      (env.register_file_system_for_path p) ∈ (RegisterFileSystem env p).2 ∧
    Effect.grantDeleteFromFileSystem env.renderer_id
      (env.register_file_system_for_path p) ∈ (RegisterFileSystem env p).2 := by
  unfold RegisterFileSystem
  by_cases hc : env.can_read_file env.renderer_id p <;> simp [hc]

theorem registerFS_no_notify (env : Env) (p : String) :
    ∀ e ∈ (RegisterFileSystem env p).2, ∀ n, e ≠ Effect.notify n := by
  unfold RegisterFileSystem
  by_cases hc : env.can_read_file env.renderer_id p <;> simp [hc]

/-- A sample host environment used to exercise the theorems on concrete
inputs. -/
def sampleEnv : Env :=
  { origin := "chrome-devtools://devtools",
    renderer_id := 5,
    register_file_system_for_path := fun p => String.append "iso:" p,
    can_read_file := fun _ _ => false,
    isolated_file_system_name := fun o i => String.append (String.append o "|") i,
    isolated_file_system_root_uri := fun o i r =>
      String.append (String.append (String.append (String.append o "/") i) "/") r,
    default_save_path := fun u => String.append "/downloads/" u }

/-- A sample delegate state: one registered workspace path, one cached
saved file and one running indexing job (request_id 7, handle 0). -/
def sampleState : DelegateState :=
  { devtools_file_system_paths := [("/proj", "automatic")],
    saved_files := [("a.txt", "/tmp/a.txt")],
    devtools_indexing_jobs := [(7, 0)],
    indexer_jobs := [{ handle := 0, request_id := 7,
                       file_system_path := "/proj", stopped := false }],
    next_handle := 1 }

/-- C2: for a path absent from the persisted registry, `DevToolsIndexPath`
immediately emits exactly an `indexingDone(request_id, path)` notification,
never an `indexingWorked` notification, and leaves no job tracked for the
request_id. -/
theorem indexPath_unregistered_reports_done (s : DelegateState) (id : Int)
    (p : String) (h : IsDevToolsFileSystemAdded s p = false) :
    (DevToolsIndexPath s id p).2 =
      [Effect.notify (Notification.indexingDone id p)] ∧
    (∀ q w, Effect.notify (Notification.indexingWorked id q w) ∉
      (DevToolsIndexPath s id p).2) ∧
    (keysNodup s.devtools_indexing_jobs →
      hasKey id (DevToolsIndexPath s id p).1.devtools_indexing_jobs = false) := by
  refine ⟨?_, ?_, ?_⟩
  · simp [DevToolsIndexPath, h, OnDevToolsIndexingDone]
  · intro q w
    simp [DevToolsIndexPath, h, OnDevToolsIndexingDone]
  · intro hnd
    simp only [DevToolsIndexPath, h, if_pos, OnDevToolsIndexingDone]
    exact hasKey_eraseKey_self id hnd

theorem indexPath_unregistered_reports_done_witness :
    IsDevToolsFileSystemAdded sampleState "/other" = false ∧
    (DevToolsIndexPath sampleState 9 "/other").2 =
      [Effect.notify (Notification.indexingDone 9 "/other")] ∧
    hasKey 9 (DevToolsIndexPath sampleState 9 "/other").1.devtools_indexing_jobs
      = false :=
  ⟨by decide,
   (indexPath_unregistered_reports_done sampleState 9 "/other" (by decide)).1,
   (indexPath_unregistered_reports_done sampleState 9 "/other" (by decide)).2.2
     (by decide)⟩

/-- C5: `DevToolsAppendToFile` on a url with no cached save path returns
with the state unchanged and no effect: no background write is posted and
no `appendedToURL` notification is emitted. -/
theorem appendToFile_untracked_noop (s : DelegateState) (url content : String)
    (h : lookupKey url s.saved_files = none) :
    DevToolsAppendToFile s url content = (s, []) := by
  simp [DevToolsAppendToFile, h]

theorem appendToFile_untracked_noop_witness :
    lookupKey "b.txt" sampleState.saved_files = none ∧
    DevToolsAppendToFile sampleState "b.txt" " world" = (sampleState, []) :=
  ⟨by decide, appendToFile_untracked_noop sampleState "b.txt" " world" (by decide)⟩

/-- C6: a path not present in the persisted registry fails the membership
check; after `DevToolsAddFileSystemInteral` with that path and a type the
membership check succeeds and the listing contains the pair. -/
theorem addFileSystem_registry_membership (env : Env) (s : DelegateState)
    (p t : String) (h : lookupKey p s.devtools_file_system_paths = none) :
    IsDevToolsFileSystemAdded s p = false ∧
    IsDevToolsFileSystemAdded (DevToolsAddFileSystemInteral env s p t).1 p = true ∧
    (p, t) ∈ GetAddedFileSystemPaths (DevToolsAddFileSystemInteral env s p t).1 := by
  have hadd : IsDevToolsFileSystemAdded s p = false := by
    simp [IsDevToolsFileSystemAdded, hasKey, h]
  refine ⟨hadd, ?_, ?_⟩
  · simp [DevToolsAddFileSystemInteral, IsDevToolsFileSystemAdded, hasKey, h,
      lookupKey_upsert_self]
  · simp only [DevToolsAddFileSystemInteral, hadd, Bool.false_eq_true, if_false,
      GetAddedFileSystemPaths]
    exact mem_upsert_self p t s.devtools_file_system_paths

theorem addFileSystem_registry_membership_witness :
    lookupKey "/new" sampleState.devtools_file_system_paths = none ∧
    IsDevToolsFileSystemAdded
      (DevToolsAddFileSystemInteral sampleEnv sampleState "/new" "automatic").1
      "/new" = true :=
  ⟨by decide,
   (addFileSystem_registry_membership sampleEnv sampleState "/new" "automatic"
     (by decide)).2.1⟩

/-- C7: adding a path already in the persisted registry leaves the whole
delegate state (in particular the registry) unchanged and emits no
notification, but still performs the isolated-context registration and
re-grants the renderer's read/write/create/delete capabilities. -/
theorem addFileSystem_existing_regrants (env : Env) (s : DelegateState)
    (p t : String) (h : IsDevToolsFileSystemAdded s p = true) :
    DevToolsAddFileSystemInteral env s p t = (s, (RegisterFileSystem env p).2) ∧
    Effect.registerFSForPath p ∈ (RegisterFileSystem env p).2 ∧
    Effect.grantReadFileSystem env.renderer_id (env.register_file_system_for_path p) ∈
      (RegisterFileSystem env p).2 ∧
    Effect.grantWriteFileSystem env.renderer_id (env.register_file_system_for_path p) ∈
      (RegisterFileSystem env p).2 ∧
    Effect.grantCreateFileForFileSystem env.renderer_id
      (env.register_file_system_for_path p) ∈ (RegisterFileSystem env p).2 ∧
    Effect.grantDeleteFromFileSystem env.renderer_id
      (env.register_file_system_for_path p) ∈ (RegisterFileSystem env p).2 ∧
    (∀ n, Effect.notify n ∉ (RegisterFileSystem env p).2) := by
  obtain ⟨h1, h2, h3, h4⟩ := registerFS_mem_grants env p
  refine ⟨by simp [DevToolsAddFileSystemInteral, h],
    registerFS_mem_registerFSForPath env p, h1, h2, h3, h4, ?_⟩
  intro n hn
  exact registerFS_no_notify env p _ hn n rfl

theorem addFileSystem_existing_regrants_witness :
    IsDevToolsFileSystemAdded sampleState "/proj" = true ∧
    DevToolsAddFileSystemInteral sampleEnv sampleState "/proj" "automatic" =
      (sampleState, (RegisterFileSystem sampleEnv "/proj").2) :=
  ⟨by decide,
   (addFileSystem_existing_regrants sampleEnv sampleState "/proj" "automatic"
     (by decide)).1⟩

/-- C8: when the user cancels the save-file picker, the delegate emits
exactly the dedicated `canceledSaveURL(url)` notification — no error, no
background write — and leaves the state (in particular the url-to-path
cache) untouched. -/
theorem saveFile_cancel_dedicated_event (s : DelegateState) (url : String) :
    OnSaveFileSelectionCancelled s url =
      (s, [Effect.notify (Notification.canceledSaveURL url)]) :=
  rfl

/-- C10: cancelling the folder picker opened by `DevToolsAddFileSystem`
with an empty path has no observable effect at all — `OnAddFileSelectionCancelled`
returns the state unchanged with an empty effect list, while the
empty-path call itself only opened the picker without touching any
state. -/
theorem addFile_cancel_no_effect (env : Env) (s : DelegateState) (t : String) :
    OnAddFileSelectionCancelled s = (s, []) ∧
    DevToolsAddFileSystem env s "" t = (s, [Effect.showFolderPicker t]) :=
  ⟨rfl, by simp [DevToolsAddFileSystem]⟩

/-- C1, counterexample: with a job already running for request_id 7,
`DevToolsIndexPath` with an *unregistered* path is not a no-op — the
registry check precedes the duplicate-job check, so the call erases the
running tracker entry and emits `indexingDone`. -/
theorem indexPath_running_unregistered_not_noop :
    hasKey 7 sampleState.devtools_indexing_jobs = true ∧
    IsDevToolsFileSystemAdded sampleState "/other" = false ∧
    DevToolsIndexPath sampleState 7 "/other" ≠ (sampleState, []) ∧
    (DevToolsIndexPath sampleState 7 "/other").2 =
      [Effect.notify (Notification.indexingDone 7 "/other")] := by
  decide

/-- C1, amended: `DevToolsIndexPath` for an already-tracked request_id is
a no-op provided the supplied path is in the persisted registry (with an
unregistered path it instead reports done, erasing the entry); the
tracker keeps at most one entry per request_id across the call; and on
completion `OnDevToolsIndexingDone` returns a state with the entry
removed alongside the (later processed) `indexingDone` notification, so
the removal precedes observer notification. -/
theorem indexPath_tracker_invariants (s : DelegateState) (id : Int) (p : String) :
    (hasKey id s.devtools_indexing_jobs = true →
      IsDevToolsFileSystemAdded s p = true →
      DevToolsIndexPath s id p = (s, [])) ∧
    (keysNodup s.devtools_indexing_jobs →
      keysNodup (DevToolsIndexPath s id p).1.devtools_indexing_jobs) ∧
    (keysNodup s.devtools_indexing_jobs →
      hasKey id (OnDevToolsIndexingDone s id p).1.devtools_indexing_jobs = false) ∧
    (OnDevToolsIndexingDone s id p).2 =
      [Effect.notify (Notification.indexingDone id p)] := by
  refine ⟨?_, ?_, ?_, rfl⟩
  · intro h1 h2
    simp [DevToolsIndexPath, h1, h2]
  · intro hnd
    by_cases hA : IsDevToolsFileSystemAdded s p = false
    · simp only [DevToolsIndexPath, hA, if_pos, OnDevToolsIndexingDone]
      exact keysNodup_eraseKey id hnd
    · by_cases hB : hasKey id s.devtools_indexing_jobs
      · simp [DevToolsIndexPath, hA, hB]
        exact hnd
      · simp [DevToolsIndexPath, hA, hB]
        exact keysNodup_upsert id s.next_handle hnd
  · intro hnd
    simp only [OnDevToolsIndexingDone]
    exact hasKey_eraseKey_self id hnd

theorem indexPath_tracker_invariants_witness :
    DevToolsIndexPath sampleState 7 "/proj" = (sampleState, []) ∧
    keysNodup (DevToolsIndexPath sampleState 7 "/proj").1.devtools_indexing_jobs ∧
    hasKey 7 (OnDevToolsIndexingDone sampleState 7 "/proj").1.devtools_indexing_jobs
      = false :=
  ⟨(indexPath_tracker_invariants sampleState 7 "/proj").1 (by decide) (by decide),
   (indexPath_tracker_invariants sampleState 7 "/proj").2.1 (by decide),
   (indexPath_tracker_invariants sampleState 7 "/proj").2.2.1 (by decide)⟩

/-- C3: once `DevToolsStopIndexing` returns, no front-end notification
bearing the stopped request_id (`indexingTotalWorkCalculated`,
`indexingWorked` or `indexingDone`) is delivered by any later sequence of
indexer callbacks: the handle was stopped and the (spec-modelled) indexer
delivers nothing for a stopped handle, so the late completion callback is
unreachable. -/
theorem stopIndexing_silences_request_id (s : DelegateState) (id : Int)
    (hwf : JobsConsistent s) (evs : List IndexerEvent) :
    (runIndexerEvents (DevToolsStopIndexing s id).1 evs).2.filter
      (fun e => e.bearsRequestId id) = [] :=
  runIndexerEvents_silent_of_allStopped _ id evs
    (allStoppedFor_stopIndexing s id hwf)

theorem stopIndexing_silences_request_id_witness :
    JobsConsistent sampleState ∧
    (runIndexerEvents (DevToolsStopIndexing sampleState 7).1
      [IndexerEvent.done 0, IndexerEvent.worked 0 3]).2.filter
      (fun e => e.bearsRequestId 7) = [] :=
  ⟨by decide,
   stopIndexing_silences_request_id sampleState 7 (by decide)
     [IndexerEvent.done 0, IndexerEvent.worked 0 3]⟩

/-- C4: `DevToolsSaveToFile` with `save_as = false` and a cached path for
the url posts the background write to that path without opening the
picker (and leaves the cache unchanged); any other combination opens the
save-file picker without touching the cache; and on a successful picker
selection the cache is updated while the write is still only a posted
task (the `savedURL` completion notification has not been emitted). -/
theorem saveToFile_path_reuse_and_picker (env : Env) (s : DelegateState)
    (url content : String) :
    (∀ path, lookupKey url s.saved_files = some path →
      DevToolsSaveToFile env s url content false =
        (s, [Effect.postWriteTask path content url])) ∧
    (∀ save_as, (lookupKey url s.saved_files = none ∨ save_as = true) →
      DevToolsSaveToFile env s url content save_as =
        (s, [Effect.showSaveFilePicker url content (env.default_save_path url)])) ∧
    (∀ path rest,
      (OnSaveFileSelected s url content (path :: rest)).1.saved_files =
        upsert url path s.saved_files ∧
      (OnSaveFileSelected s url content (path :: rest)).2 =
        [Effect.postWriteTask path content url]) := by
  refine ⟨?_, ?_, ?_⟩
  · intro path h
    simp only [DevToolsSaveToFile, h, Bool.false_eq_true, if_false]
    rw [upsert_of_lookupKey_eq h]
  · intro save_as h
    rcases h with h | h
    · cases save_as <;> simp [DevToolsSaveToFile, h]
    · subst h
      cases hl : lookupKey url s.saved_files <;> simp [DevToolsSaveToFile, hl]
  · intro path rest
    exact ⟨rfl, rfl⟩

theorem saveToFile_path_reuse_and_picker_witness :
    lookupKey "a.txt" sampleState.saved_files = some "/tmp/a.txt" ∧
    DevToolsSaveToFile sampleEnv sampleState "a.txt" "hello" false =
      (sampleState, [Effect.postWriteTask "/tmp/a.txt" "hello" "a.txt"]) ∧
    DevToolsSaveToFile sampleEnv sampleState "b.txt" "hello" false =
      (sampleState, [Effect.showSaveFilePicker "b.txt" "hello"
        (sampleEnv.default_save_path "b.txt")]) :=
  ⟨by decide,
   (saveToFile_path_reuse_and_picker sampleEnv sampleState "a.txt" "hello").1
     "/tmp/a.txt" (by decide),
   (saveToFile_path_reuse_and_picker sampleEnv sampleState "b.txt" "hello").2.1
     false (Or.inl (by decide))⟩

theorem mem_requestedRegs_of_mem {env : Env} {l : List (String × String)}
    {p t : String} (h : (p, t) ∈ l) {e : Effect}
    (he : e ∈ (RegisterFileSystem env p).2) :
    e ∈ (l.map (requestedFileSystemReg env)).flatMap Prod.fst := by
  rw [List.mem_flatMap]
  refine ⟨requestedFileSystemReg env (p, t), List.mem_map_of_mem _ h, ?_⟩
  simpa [requestedFileSystemReg] using he

theorem requestedRegs_no_notify (env : Env) (l : List (String × String)) :
    ∀ e ∈ (l.map (requestedFileSystemReg env)).flatMap Prod.fst,
      ∀ n, e ≠ Effect.notify n := by
  intro e he n
  rw [List.mem_flatMap] at he
  obtain ⟨pr, hpr, hepr⟩ := he
  rw [List.mem_map] at hpr
  obtain ⟨pt, hpt, hprpt⟩ := hpr
  subst hprpt
  have hmem : e ∈ (RegisterFileSystem env pt.1).2 := by
    simpa [requestedFileSystemReg] using hepr
  exact registerFS_no_notify env pt.1 e hmem n

/-- C9: `DevToolsRequestFileSystems` keeps the state unchanged; with an
empty registry it only delivers an empty `fileSystemsLoaded`; otherwise,
for every persisted `(path, type)` pair it registers an isolated file
system and grants the renderer read/write/create/delete on it, and all
these registration effects precede the single trailing
`fileSystemsLoaded` notification. -/
theorem requestFileSystems_registers_and_loads (env : Env) (s : DelegateState) :
    (DevToolsRequestFileSystems env s).1 = s ∧
    (GetAddedFileSystemPaths s = [] →
      (DevToolsRequestFileSystems env s).2 =
        [Effect.notify (Notification.fileSystemsLoaded [])]) ∧
    (∀ p t, (p, t) ∈ GetAddedFileSystemPaths s →
      Effect.registerFSForPath p ∈ (DevToolsRequestFileSystems env s).2 ∧
      Effect.grantReadFileSystem env.renderer_id
        (env.register_file_system_for_path p) ∈ (DevToolsRequestFileSystems env s).2 ∧
      Effect.grantWriteFileSystem env.renderer_id
        (env.register_file_system_for_path p) ∈ (DevToolsRequestFileSystems env s).2 ∧
      Effect.grantCreateFileForFileSystem env.renderer_id
        (env.register_file_system_for_path p) ∈ (DevToolsRequestFileSystems env s).2 ∧
      Effect.grantDeleteFromFileSystem env.renderer_id
        (env.register_file_system_for_path p) ∈ (DevToolsRequestFileSystems env s).2) ∧
    (∃ fss, (DevToolsRequestFileSystems env s).2.getLast? =
      some (Effect.notify (Notification.fileSystemsLoaded fss))) ∧
    (∀ e ∈ (DevToolsRequestFileSystems env s).2.dropLast, ∀ n, e ≠ Effect.notify n) := by
  by_cases hemp : (GetAddedFileSystemPaths s).isEmpty
  · have hl : GetAddedFileSystemPaths s = [] := by
      simpa [List.isEmpty_iff] using hemp
    refine ⟨?_, ?_, ?_, ?_, ?_⟩
    · simp [DevToolsRequestFileSystems, hemp]
    · intro _
      simp [DevToolsRequestFileSystems, hemp]
    · intro p t hmem
      rw [hl] at hmem
      simp at hmem
    · exact ⟨[], by simp [DevToolsRequestFileSystems, hemp]⟩
    · intro e he n
      simp [DevToolsRequestFileSystems, hemp] at he
  · have heff : (DevToolsRequestFileSystems env s).2 =
        ((GetAddedFileSystemPaths s).map (requestedFileSystemReg env)).flatMap
          Prod.fst ++
        [Effect.notify (Notification.fileSystemsLoaded
          (((GetAddedFileSystemPaths s).map (requestedFileSystemReg env)).map
            Prod.snd))] := by
      simp [DevToolsRequestFileSystems, hemp]
    refine ⟨?_, ?_, ?_, ?_, ?_⟩
    · simp [DevToolsRequestFileSystems, hemp]
    · intro hl
      rw [hl] at hemp
      simp at hemp
    · intro p t hmem
      rw [heff]
      obtain ⟨g1, g2, g3, g4⟩ := registerFS_mem_grants env p
      exact ⟨List.mem_append_left _
          (mem_requestedRegs_of_mem hmem (registerFS_mem_registerFSForPath env p)),
        List.mem_append_left _ (mem_requestedRegs_of_mem hmem g1),
        List.mem_append_left _ (mem_requestedRegs_of_mem hmem g2),
        List.mem_append_left _ (mem_requestedRegs_of_mem hmem g3),
        List.mem_append_left _ (mem_requestedRegs_of_mem hmem g4)⟩
    · exact ⟨((GetAddedFileSystemPaths s).map (requestedFileSystemReg env)).map
        Prod.snd, by rw [heff, List.getLast?_concat]⟩
    · intro e he n
      rw [heff, List.dropLast_concat] at he
      exact requestedRegs_no_notify env _ e he n

theorem requestFileSystems_registers_and_loads_witness :
    (DevToolsRequestFileSystems sampleEnv sampleState).1 = sampleState ∧
    Effect.registerFSForPath "/proj" ∈
      (DevToolsRequestFileSystems sampleEnv sampleState).2 :=
  ⟨(requestFileSystems_registers_and_loads sampleEnv sampleState).1,
   ((requestFileSystems_registers_and_loads sampleEnv sampleState).2.2.1 "/proj"
     "automatic" (by decide)).1⟩

end Muon
